import Mathlib

/-!
Verification of the relay command/acknowledgement protocol of
`api_server.py` (Flask API server for a smart meter).

The relevant mutable state of the server is three module-level globals:

* `relay_state : str` (initially `'off'`),
* `pending_command : Optional[str]` (initially `None`),
* `command_timestamp : Optional[datetime]` (initially `None`),

together with the constant `COMMAND_TIMEOUT_SECONDS = 30`.

Two HTTP handlers mutate this state:

* `get_relay_control` (GET `/api/relay-control`): lazily expires the
  pending command when `now - command_timestamp > 30 s`, then returns
  the pending command and the relay state;
* `post_relay_control` (POST `/api/relay-control`): a body with a
  `status` key reports the device state (confirming a matching pending
  command); otherwise a body with a `command` key queues a new pending
  command and optimistically updates the relay state; otherwise 400.

We embed the state shallowly, with wall-clock time passed explicitly as
an `Int` number of seconds (the code only ever subtracts two clock
readings and compares with the 30-second timeout, so an abstract
integer clock is faithful).  JSON values occurring in a request body
are modelled by a small inductive type `JsonVal`; Python's `==`
between such a value and the string literal `'on'` holds exactly for
the JSON string `"on"`.
-/

/-- A JSON value as it may appear under a key of the POST body.
Python's `body['status'] == 'on'` is equality with `JsonVal.str "on"`. -/
inductive JsonVal where
  | str (s : String)
  | num (n : Int)
  | boolean (b : Bool)
  | null
deriving DecidableEq, Repr

/-- The mutable globals of the server that the relay handlers touch. -/
structure ServerState where
  relay_state : String
  pending_command : Option String
  command_timestamp : Option Int
deriving DecidableEq, Repr

/-- Initial values of the globals: `relay_state = 'off'`,
`pending_command = None`, `command_timestamp = None`. -/
def initialState : ServerState :=
  { relay_state := "off", pending_command := none, command_timestamp := none }

/-- `COMMAND_TIMEOUT_SECONDS = 30`. -/
def COMMAND_TIMEOUT_SECONDS : Int := 30

/-- Python truthiness of the optional string `pending_command`:
`None` and the empty string are falsy. -/
def truthyStr : Option String → Bool
  | none => false
  | some c => c ≠ ""

/-- Response body of GET `/api/relay-control`:
`{'command': pending_command, 'status': relay_state}`. -/
structure GetResponse where
  command : Option String
  status : String
deriving DecidableEq, Repr

/-- GET `/api/relay-control` (`get_relay_control`): if a pending
command and its timestamp exist and `now - command_timestamp >
COMMAND_TIMEOUT_SECONDS`, both are cleared; then the (possibly
cleared) pending command and the relay state are returned. -/
def get_relay_control (now : Int) (s : ServerState) : ServerState × GetResponse :=
  let s1 :=
    match s.command_timestamp with
    | some ts =>
        if truthyStr s.pending_command ∧ now - ts > COMMAND_TIMEOUT_SECONDS then
          { s with pending_command := none, command_timestamp := none }
        else s
    | none => s
  (s1, { command := s1.pending_command, status := s1.relay_state })

/-- A POST `/api/relay-control` JSON body, recording the values under
the `status` and `command` keys when present. -/
structure PostBody where
  status? : Option JsonVal
  command? : Option JsonVal
deriving DecidableEq, Repr

/-- Response of POST `/api/relay-control`: the success body of the
status branch, the success body of the command branch, or the
400 `Invalid request body` rejection. -/
inductive PostResponse where
  | statusUpdated (status : String)
  | commandQueued (command : String) (status : String)
  | badRequest
deriving DecidableEq, Repr

/-- POST `/api/relay-control` (`post_relay_control`).  If `'status' in
body`: normalize to `'on'`/`'off'`, set `relay_state`, clear the
pending command if it equals the new status, and return.  Else if
`'command' in body`: normalize, store as pending command with the
current timestamp, set `relay_state` optimistically, and return.
Else: 400. -/
def post_relay_control (now : Int) (body : PostBody) (s : ServerState) :
    ServerState × PostResponse :=
  match body.status? with
  | some v =>
      let new_status := if v = JsonVal.str "on" then "on" else "off"
      let s1 := { s with relay_state := new_status }
      let s2 :=
        if s1.pending_command = some new_status then
          { s1 with pending_command := none, command_timestamp := none }
        else s1
      (s2, .statusUpdated s2.relay_state)
  | none =>
    match body.command? with
    | some v =>
        let command := if v = JsonVal.str "on" then "on" else "off"
        let s1 := { s with pending_command := some command,
                           command_timestamp := some now,
                           relay_state := command }
        (s1, .commandQueued command s1.relay_state)
    | none => (s, .badRequest)

/-- One request to `/api/relay-control`: a GET poll at some time, or a
POST with some body at some time. -/
inductive Req where
  | get (now : Int)
  | post (now : Int) (body : PostBody)
deriving DecidableEq, Repr

/-- The state transition performed by one request. -/
def step (s : ServerState) : Req → ServerState
  | .get now => (get_relay_control now s).1
  | .post now body => (post_relay_control now body s).1

/-- The state after serving a sequence of requests. -/
def run (s : ServerState) : List Req → ServerState
  | [] => s
  | r :: rs => run (step s r) rs

/-- A request is a status report: a POST whose body carries a
`status` key. -/
def isStatusReport : Req → Bool
  | .post _ body => body.status?.isSome
  | .get _ => false

/-- The invariant tying the three globals together: the pending command
and its timestamp are set and cleared together, and the relay state is
one of the two lower-case tokens. -/
def RelayInv (s : ServerState) : Prop :=
  (s.pending_command = none ↔ s.command_timestamp = none) ∧
  (s.relay_state = "on" ∨ s.relay_state = "off")

theorem step_preserves_RelayInv (s : ServerState) (h : RelayInv s) (r : Req) :
    RelayInv (step s r) := by
  obtain ⟨hiff, hrelay⟩ := h
  unfold RelayInv
  cases r with
  | get now =>
      simp only [step, get_relay_control]
      split
      · split
        · exact ⟨by simp, hrelay⟩
        · exact ⟨hiff, hrelay⟩
      · exact ⟨hiff, hrelay⟩
  | post now body =>
      cases hst : body.status? with
      | some v =>
          simp only [step, post_relay_control, hst]
          split <;> split
          all_goals exact ⟨by simp [hiff], by simp⟩
      | none =>
          cases hcm : body.command? with
          | some v =>
              simp only [step, post_relay_control, hst, hcm]
              split <;> exact ⟨by simp, by simp⟩
          | none =>
              simp only [step, post_relay_control, hst, hcm]
              exact ⟨hiff, hrelay⟩

theorem run_preserves_RelayInv (reqs : List Req) (s : ServerState) (h : RelayInv s) :
    RelayInv (run s reqs) := by
  induction reqs generalizing s with
  | nil => exact h
  | cons r rs ih => exact ih (step s r) (step_preserves_RelayInv s h r)

/-- C9: in every state reachable from the initial state by GET/POST
`/api/relay-control` requests, `pending_command` is `None` iff
`command_timestamp` is `None`, and `relay_state` is `'on'` or
`'off'`. -/
theorem reachable_state_invariant (reqs : List Req) :
    ((run initialState reqs).pending_command = none ↔
      (run initialState reqs).command_timestamp = none) ∧
    ((run initialState reqs).relay_state = "on" ∨
      (run initialState reqs).relay_state = "off") :=
  run_preserves_RelayInv reqs initialState ⟨by simp [initialState], Or.inr rfl⟩

/-- C8: a POST body with neither a `status` nor a `command` key is
rejected with the 400 response and leaves the state unchanged. -/
theorem post_missing_keys_rejected (now : Int) (s : ServerState) :
    post_relay_control now { status? := none, command? := none } s =
      (s, PostResponse.badRequest) := rfl

/-- C6: issuing the same command twice in a row (at times `T1` then
`T2`) yields exactly the state and response of issuing it once at
`T2`; and issuing any command overwrites whatever was pending with the
normalized target and the current timestamp (last-writer-wins). -/
theorem issue_command_idempotent_overwrite (t t2 : JsonVal) (T1 T2 now : Int)
    (s u : ServerState) :
    post_relay_control T2 { status? := none, command? := some t }
        (post_relay_control T1 { status? := none, command? := some t } s).1 =
      post_relay_control T2 { status? := none, command? := some t } s ∧
    (post_relay_control now { status? := none, command? := some t2 } u).1 =
      { relay_state := if t2 = JsonVal.str "on" then "on" else "off",
        pending_command := some (if t2 = JsonVal.str "on" then "on" else "off"),
        command_timestamp := some now } :=
  ⟨rfl, rfl⟩

/-- C1: on a GET poll, if a pending command exists (with its
timestamp) and strictly more than the 30-second timeout has elapsed
since it was issued, both `pending_command` and `command_timestamp`
are cleared before the response is formed; the response then reports
the current pending command (here `null`) and the current relay state
— and in general the response always mirrors the post-expiry state. -/
theorem poll_expires_stale_command (now ts : Int) (s : ServerState) (c : String)
    (hp : s.pending_command = some c) (hc : c = "on" ∨ c = "off")
    (ht : s.command_timestamp = some ts)
    (hexp : now - ts > COMMAND_TIMEOUT_SECONDS) :
    (get_relay_control now s).1.pending_command = none ∧
    (get_relay_control now s).1.command_timestamp = none ∧
    (get_relay_control now s).2.command = none ∧
    (get_relay_control now s).2.status = s.relay_state ∧
    COMMAND_TIMEOUT_SECONDS = 30 ∧
    (∀ (n : Int) (u : ServerState),
      (get_relay_control n u).2.command = (get_relay_control n u).1.pending_command ∧
      (get_relay_control n u).2.status = (get_relay_control n u).1.relay_state) := by
  have htruthy : truthyStr s.pending_command = true := by
    rcases hc with h | h <;> simp [hp, h, truthyStr]
  refine ⟨?_, ?_, ?_, ?_, rfl, fun n u => ⟨rfl, rfl⟩⟩ <;>
    simp [get_relay_control, ht, htruthy, hexp]

theorem poll_expires_stale_command_witness :
    (get_relay_control 31
        { relay_state := "on", pending_command := some "on",
          command_timestamp := some 0 }).2.command = none :=
  (poll_expires_stale_command 31 0
    { relay_state := "on", pending_command := some "on", command_timestamp := some 0 }
    "on" rfl (Or.inl rfl) rfl (by decide)).2.2.1

/-- C3: issuing a command `t ∈ {on, off}` records `t` as the pending
command stamped with the current time, optimistically sets the relay
state to `t`, and returns the success response carrying the command
and the resulting state; no error is possible. -/
theorem issue_command_spec (now : Int) (t : String) (ht : t = "on" ∨ t = "off")
    (s : ServerState) :
    post_relay_control now { status? := none, command? := some (JsonVal.str t) } s =
      ({ relay_state := t, pending_command := some t, command_timestamp := some now },
        PostResponse.commandQueued t t) := by
  rcases ht with h | h <;> subst h <;> simp [post_relay_control]

theorem issue_command_spec_witness :
    post_relay_control 7 { status? := none, command? := some (JsonVal.str "off") }
        initialState =
      ({ relay_state := "off", pending_command := some "off",
          command_timestamp := some 7 },
        PostResponse.commandQueued "off" "off") :=
  issue_command_spec 7 "off" (Or.inr rfl) initialState

/-- C7: any JSON value under `status` (resp. `command`) other than the
string `"on"` is treated exactly as the string `"off"`: the handler's
behavior on such a body is identical to its behavior on a body
carrying `"off"`. -/
theorem post_body_normalizes_to_off (v : JsonVal) (hv : v ≠ JsonVal.str "on")
    (now : Int) (s : ServerState) (c : Option JsonVal) :
    post_relay_control now { status? := some v, command? := c } s =
      post_relay_control now { status? := some (JsonVal.str "off"), command? := c } s ∧
    post_relay_control now { status? := none, command? := some v } s =
      post_relay_control now { status? := none, command? := some (JsonVal.str "off") } s := by
  constructor <;> simp [post_relay_control, hv]

theorem post_body_normalizes_to_off_witness :
    post_relay_control 0 { status? := some JsonVal.null, command? := none } initialState =
      post_relay_control 0 { status? := some (JsonVal.str "off"), command? := none }
        initialState :=
  (post_body_normalizes_to_off JsonVal.null (by decide) 0 initialState none).1

/-- C10: when a POST body carries both a `status` and a `command` key,
the handler behaves exactly as if only the `status` key were present
(the status branch returns immediately), and in particular no new
pending command or timestamp is installed: each is either left
unchanged or cleared by confirmation. -/
theorem both_keys_status_branch_wins (now : Int) (s : ServerState) (v w : JsonVal) :
    post_relay_control now { status? := some v, command? := some w } s =
      post_relay_control now { status? := some v, command? := none } s ∧
    ((post_relay_control now { status? := some v, command? := some w } s).1.pending_command
        = s.pending_command ∨
      (post_relay_control now { status? := some v, command? := some w } s).1.pending_command
        = none) ∧
    ((post_relay_control now { status? := some v, command? := some w } s).1.command_timestamp
        = s.command_timestamp ∨
      (post_relay_control now { status? := some v, command? := some w } s).1.command_timestamp
        = none) := by
  refine ⟨rfl, ?_, ?_⟩ <;>
    · simp only [post_relay_control]
      split <;> split <;> simp

/-- C2: a status report `r ∈ {on, off}` sets the relay state to `r`
unconditionally; a pending command equal to `r` is cleared (confirmed)
while a different pending command is left untouched; in particular
IssueCommand(on), then ReportStatus(off), then a poll within the
timeout reports pending command `on` and relay state `off`. -/
theorem report_status_spec (now : Int) (r : String) (hr : r = "on" ∨ r = "off")
    (s : ServerState) :
    (post_relay_control now { status? := some (JsonVal.str r), command? := none } s).1.relay_state
      = r ∧
    (s.pending_command = some r →
      (post_relay_control now { status? := some (JsonVal.str r), command? := none } s).1 =
        { relay_state := r, pending_command := none, command_timestamp := none }) ∧
    (s.pending_command ≠ some r →
      (post_relay_control now { status? := some (JsonVal.str r), command? := none } s).1 =
        { relay_state := r, pending_command := s.pending_command,
          command_timestamp := s.command_timestamp }) ∧
    (∀ (t0 t1 t2 : Int) (u : ServerState), t2 - t0 ≤ COMMAND_TIMEOUT_SECONDS →
      (get_relay_control t2
          (post_relay_control t1 { status? := some (JsonVal.str "off"), command? := none }
            (post_relay_control t0
              { status? := none, command? := some (JsonVal.str "on") } u).1).1).2 =
        { command := some "on", status := "off" }) := by
  rcases hr with h | h <;> subst h <;>
    refine ⟨?_, fun hp => ?_, fun hp => ?_, fun t0 t1 t2 u hle => ?_⟩
  · simp only [post_relay_control]
    split <;> split <;> simp_all
  · simp [post_relay_control, hp]
  · simp [post_relay_control, hp]
  · have hnot : ¬ (t2 - t0 > COMMAND_TIMEOUT_SECONDS) := not_lt.mpr hle
    simp [post_relay_control, get_relay_control, truthyStr, hnot]
  · simp only [post_relay_control]
    split <;> split <;> simp_all
  · simp [post_relay_control, hp]
  · simp [post_relay_control, hp]
  · have hnot : ¬ (t2 - t0 > COMMAND_TIMEOUT_SECONDS) := not_lt.mpr hle
    simp [post_relay_control, get_relay_control, truthyStr, hnot]

theorem report_status_spec_witness :
    (post_relay_control 3 { status? := some (JsonVal.str "off"), command? := none }
        initialState).1.relay_state = "off" :=
  (report_status_spec 3 "off" (Or.inr rfl) initialState).1

theorem run_status_reports_pending (reports : List Req)
    (hr : ∀ r ∈ reports, isStatusReport r = true) (u : ServerState) :
    ((run u reports).pending_command = u.pending_command ∧
      (run u reports).command_timestamp = u.command_timestamp) ∨
    ((run u reports).pending_command = none ∧
      (run u reports).command_timestamp = none) := by
  induction reports generalizing u with
  | nil => exact Or.inl ⟨rfl, rfl⟩
  | cons r rs ih =>
      simp only [run]
      have hr0 : isStatusReport r = true := hr r (List.mem_cons_self r rs)
      have hrs : ∀ x ∈ rs, isStatusReport x = true :=
        fun x hx => hr x (List.mem_cons_of_mem r hx)
      have hstep : ((step u r).pending_command = u.pending_command ∧
            (step u r).command_timestamp = u.command_timestamp) ∨
          ((step u r).pending_command = none ∧
            (step u r).command_timestamp = none) := by
        cases r with
        | get n => simp [isStatusReport] at hr0
        | post n body =>
            cases hst : body.status? with
            | none => simp [isStatusReport, hst] at hr0
            | some v =>
                simp only [step, post_relay_control, hst]
                split <;> split
                all_goals first
                  | exact Or.inl ⟨rfl, rfl⟩
                  | exact Or.inr ⟨rfl, rfl⟩
      rcases ih hrs (step u r) with ⟨h1, h2⟩ | ⟨h1, h2⟩
      · rcases hstep with ⟨g1, g2⟩ | ⟨g1, g2⟩
        · exact Or.inl ⟨h1.trans g1, h2.trans g2⟩
        · exact Or.inr ⟨h1.trans g1, h2.trans g2⟩
      · exact Or.inr ⟨h1, h2⟩

/-- C4: if a command is issued at time `T` and a poll happens at time
`T + 30 + ε` with `ε > 0`, then — whatever status reports arrived in
between, and with no further command issued — the poll reports no
pending command. -/
theorem issued_command_expires_despite_reports (s : ServerState) (t : JsonVal)
    (T eps : Int) (heps : eps > 0) (reports : List Req)
    (hr : ∀ r ∈ reports, isStatusReport r = true) :
    (get_relay_control (T + COMMAND_TIMEOUT_SECONDS + eps)
        (run (step s (Req.post T { status? := none, command? := some t }))
          reports)).2.command = none := by
  set s1 := step s (Req.post T { status? := none, command? := some t }) with hs1
  have hp : s1.pending_command = some (if t = JsonVal.str "on" then "on" else "off") := rfl
  have hts : s1.command_timestamp = some T := rfl
  rcases run_status_reports_pending reports hr s1 with ⟨h1, h2⟩ | ⟨h1, h2⟩
  · have htruthy : truthyStr (run s1 reports).pending_command = true := by
      rw [h1, hp]
      split <;> simp [truthyStr]
    have hgt : T + COMMAND_TIMEOUT_SECONDS + eps - T > COMMAND_TIMEOUT_SECONDS := by omega
    simp [get_relay_control, h2.trans hts, htruthy, hgt]
  · simp [get_relay_control, h1, h2]

theorem issued_command_expires_despite_reports_witness :
    (get_relay_control (0 + COMMAND_TIMEOUT_SECONDS + 1)
        (run (step initialState
            (Req.post 0 { status? := none, command? := some (JsonVal.str "on") }))
          [Req.post 5 { status? := some (JsonVal.str "off"), command? := none }])).2.command
      = none :=
  issued_command_expires_despite_reports initialState (JsonVal.str "on") 0 1
    (by decide)
    [Req.post 5 { status? := some (JsonVal.str "off"), command? := none }]
    (by simp [isStatusReport])
